import Mathlib

/-!
Verification of the hunterXCodingAgent repository core: the agent control
loop, JSON action parsing, tool dispatch, task management, shell-command
gating and the code-critic scoring, shallowly embedded from the Python
sources (`coding_agent.py`, `mobile_web_agent/core/*.py`,
`mobile_surf_agent.py`).

Modelling conventions:
* Python values decoded from JSON are modelled by the `Json` inductive;
  `json.loads` is modelled by the executable recursive-descent parser
  `jsonLoads` below (RFC 8259 grammar as accepted by Python's `json`
  module; the nonstandard `NaN`/`Infinity` extension and lone surrogate
  escapes are outside the fragment exercised here and are noted where
  relevant).
* Python exceptions are modelled by `PyResult`: a raising call returns
  `.exn msg`; `try/except` blocks are explicit matches.
* Effectful collaborators (the model backend, the filesystem, shell
  execution, the reflection system) are modelled as oracles over an
  abstract world state `W`; a tool is a function from its JSON arguments
  and the world to a `PyResult String` and an updated world.  The model
  gateway is modelled by its response trace `gen : Nat → String` giving
  the raw text returned by the i-th call; prompt strings built by the
  loop only feed the gateway and never influence the loop's own control
  flow, so they are not reproduced.
-/

namespace HXAgent

/-- JSON values as decoded by `json.loads`.  Numbers are kept exactly as
`mantissa * 10 ^ exponent` (an integer literal parses to `num m 0`). -/
inductive Json where
  | null
  | bool (b : Bool)
  | num (mantissa : Int) (exponent : Int)
  | str (s : String)
  | arr (elems : List Json)
  | obj (fields : List (String × Json))
deriving Repr

mutual

/-- Structural equality of decoded values (Python `==` on the fragment the
agent exercises). -/
def Json.beq : Json → Json → Bool
  | .null, .null => true
  | .bool a, .bool b => a == b
  | .num m e, .num n f => m == n && e == f
  | .str a, .str b => a == b
  | .arr xs, .arr ys => Json.beqList xs ys
  | .obj xs, .obj ys => Json.beqFields xs ys
  | _, _ => false

def Json.beqList : List Json → List Json → Bool
  | [], [] => true
  | x :: xs, y :: ys => Json.beq x y && Json.beqList xs ys
  | _, _ => false

def Json.beqFields : List (String × Json) → List (String × Json) → Bool
  | [], [] => true
  | (k, v) :: xs, (l, w) :: ys => k == l && Json.beq v w && Json.beqFields xs ys
  | _, _ => false

end

mutual

theorem Json.beq_iff : ∀ a b : Json, Json.beq a b = true ↔ a = b
  | .null, .null => by simp [Json.beq]
  | .bool a, .bool b => by simp [Json.beq]
  | .num m e, .num n f => by simp [Json.beq]
  | .str a, .str b => by simp [Json.beq]
  | .arr xs, .arr ys => by
    simp only [Json.beq, Json.beqList_iff xs ys, Json.arr.injEq]
  | .obj xs, .obj ys => by
    simp only [Json.beq, Json.beqFields_iff xs ys, Json.obj.injEq]
  | .null, .bool _ | .null, .num _ _ | .null, .str _ | .null, .arr _ | .null, .obj _
  | .bool _, .null | .bool _, .num _ _ | .bool _, .str _ | .bool _, .arr _ | .bool _, .obj _
  | .num _ _, .null | .num _ _, .bool _ | .num _ _, .str _ | .num _ _, .arr _ | .num _ _, .obj _
  | .str _, .null | .str _, .bool _ | .str _, .num _ _ | .str _, .arr _ | .str _, .obj _
  | .arr _, .null | .arr _, .bool _ | .arr _, .num _ _ | .arr _, .str _ | .arr _, .obj _
  | .obj _, .null | .obj _, .bool _ | .obj _, .num _ _ | .obj _, .str _ | .obj _, .arr _ => by
    simp [Json.beq]

theorem Json.beqList_iff : ∀ xs ys : List Json, Json.beqList xs ys = true ↔ xs = ys
  | [], [] => by simp [Json.beqList]
  | x :: xs, y :: ys => by
    simp [Json.beqList, Json.beq_iff x y, Json.beqList_iff xs ys]
  | [], _ :: _ => by simp [Json.beqList]
  | _ :: _, [] => by simp [Json.beqList]

theorem Json.beqFields_iff :
    ∀ xs ys : List (String × Json), Json.beqFields xs ys = true ↔ xs = ys
  | [], [] => by simp [Json.beqFields]
  | (k, v) :: xs, (l, w) :: ys => by
    simp [Json.beqFields, Json.beq_iff v w, Json.beqFields_iff xs ys, and_assoc]
  | [], _ :: _ => by simp [Json.beqFields]
  | _ :: _, [] => by simp [Json.beqFields]

end

instance : DecidableEq Json := fun a b => decidable_of_iff _ (Json.beq_iff a b)

/-- Python-`dict` insertion: an existing key keeps its position and gets the
new value, a new key is appended (insertion order). -/
def objInsert (kvs : List (String × Json)) (k : String) (v : Json) :
    List (String × Json) :=
  match kvs with
  | [] => [(k, v)]
  | (k0, v0) :: rest =>
    if k0 = k then (k0, v) :: rest else (k0, v0) :: objInsert rest k v

/-- Lookup of a string key in a decoded object; `none` when the value is
not a dict or the key is absent (`isinstance(a, dict) and k in a`). -/
def objLookup (a : Json) (k : String) : Option Json :=
  match a with
  | Json.obj kvs => kvs.lookup k
  | _ => none

/-- `a.get(k, d)` on a decoded dict. -/
def objGetD (a : Json) (k : String) (d : Json) : Json :=
  (objLookup a k).getD d

/-! ### A model of `json.loads`

Recursive-descent parser for the RFC 8259 grammar accepted by Python's
`json.loads` (strict mode): a value with surrounding whitespace and
nothing after it.  Recursion is by explicit fuel; `jsonLoads` supplies
fuel larger than any possible nesting depth of its input.  Python's
nonstandard `NaN`/`Infinity` literals and lone-surrogate `\uXXXX`
escapes are outside the fragment this repository's agents exercise and
are not modelled. -/

/-- JSON whitespace characters. -/
def isJsonWs (c : Char) : Bool := c = ' ' || c = '\t' || c = '\n' || c = '\r'

def skipWs : List Char → List Char
  | [] => []
  | c :: cs => if isJsonWs c then skipWs cs else c :: cs

def isDigit (c : Char) : Bool := '0' ≤ c && c ≤ '9'

def digitsToNat (ds : List Char) : Nat :=
  ds.foldl (fun a c => a * 10 + (c.toNat - 48)) 0

def hexVal (c : Char) : Option Nat :=
  if '0' ≤ c ∧ c ≤ '9' then some (c.toNat - 48)
  else if 'a' ≤ c ∧ c ≤ 'f' then some (c.toNat - 87)
  else if 'A' ≤ c ∧ c ≤ 'F' then some (c.toNat - 55)
  else none

/-- The four hex digits of a `\uXXXX` escape. -/
def hex4 : List Char → Option (Nat × List Char)
  | a :: b :: c :: d :: rest => do
    let x ← hexVal a
    let y ← hexVal b
    let z ← hexVal c
    let w ← hexVal d
    pure (((x * 16 + y) * 16 + z) * 16 + w, rest)
  | _ => none

/-- Body of a JSON string after its opening quote: content up to the
closing quote, decoding escapes, rejecting raw control characters. -/
def parseStrChars : Nat → List Char → List Char → Option (String × List Char)
  | 0, _, _ => none
  | _, [], _ => none
  | fuel + 1, c :: cs, acc =>
    if c = '"' then some (String.mk acc.reverse, cs)
    else if c = '\\' then
      match cs with
      | [] => none
      | e :: cs2 =>
        if e = '"' then parseStrChars fuel cs2 ('"' :: acc)
        else if e = '\\' then parseStrChars fuel cs2 ('\\' :: acc)
        else if e = '/' then parseStrChars fuel cs2 ('/' :: acc)
        else if e = 'b' then parseStrChars fuel cs2 ('\x08' :: acc)
        else if e = 'f' then parseStrChars fuel cs2 ('\x0c' :: acc)
        else if e = 'n' then parseStrChars fuel cs2 ('\n' :: acc)
        else if e = 'r' then parseStrChars fuel cs2 ('\x0d' :: acc)
        else if e = 't' then parseStrChars fuel cs2 ('\t' :: acc)
        else if e = 'u' then
          match hex4 cs2 with
          | none => none
          | some (n, cs3) =>
            if 0xD800 ≤ n ∧ n ≤ 0xDBFF then
              match cs3 with
              | '\\' :: 'u' :: cs4 =>
                match hex4 cs4 with
                | some (n2, cs5) =>
                  if 0xDC00 ≤ n2 ∧ n2 ≤ 0xDFFF then
                    parseStrChars fuel cs5
                      (Char.ofNat (0x10000 + (n - 0xD800) * 0x400 + (n2 - 0xDC00)) :: acc)
                  else parseStrChars fuel ('\\' :: 'u' :: cs4) (Char.ofNat n :: acc)
                | none => parseStrChars fuel ('\\' :: 'u' :: cs4) (Char.ofNat n :: acc)
              | _ => parseStrChars fuel cs3 (Char.ofNat n :: acc)
            else parseStrChars fuel cs3 (Char.ofNat n :: acc)
        else none
    else if c.toNat < 0x20 then none
    else parseStrChars fuel cs (c :: acc)

/-- A literal such as `rue` after the initial `t` has been seen. -/
def stripPrefixLit : List Char → List Char → Option (List Char)
  | [], rest => some rest
  | p :: ps, c :: rest => if c = p then stripPrefixLit ps rest else none
  | _ :: _, [] => none

/-- JSON number: `-?(0|[1-9][0-9]*)(\.[0-9]+)?([eE][+-]?[0-9]+)?`, kept as
mantissa and decimal exponent. -/
def parseNumber (cs0 : List Char) : Option (Json × List Char) :=
  let sgn := match cs0 with
    | '-' :: rest => (true, rest)
    | _ => (false, cs0)
  match sgn.2 with
  | [] => none
  | c :: rest =>
    if isDigit c then
      let ip :=
        if c = '0' then ([c], rest)
        else
          let p := rest.span isDigit
          (c :: p.1, p.2)
      let fp :=
        match ip.2 with
        | '.' :: r =>
          let p := r.span isDigit
          if p.1 = [] then (([] : List Char), ip.2) else (p.1, p.2)
        | _ => ([], ip.2)
      let ep :=
        match fp.2 with
        | e :: r =>
          if e = 'e' ∨ e = 'E' then
            let se := match r with
              | '+' :: r3 => ((1 : Int), r3)
              | '-' :: r3 => ((-1 : Int), r3)
              | _ => ((1 : Int), r)
            let p := se.2.span isDigit
            if p.1 = [] then ((0 : Int), fp.2)
            else (se.1 * (digitsToNat p.1 : Int), p.2)
          else ((0 : Int), fp.2)
        | [] => ((0 : Int), fp.2)
      let mag : Int := (digitsToNat (ip.1 ++ fp.1) : Int)
      some (Json.num (if sgn.1 then -mag else mag) (ep.1 - fp.1.length), ep.2)
    else none

mutual

def parseValue : Nat → List Char → Option (Json × List Char)
  | 0, _ => none
  | fuel + 1, cs =>
    match skipWs cs with
    | [] => none
    | c :: rest =>
      if c = '"' then
        match parseStrChars (rest.length + 1) rest [] with
        | some (s, r) => some (Json.str s, r)
        | none => none
      else if c = '\x7b' then
        match skipWs rest with
        | '\x7d' :: r => some (Json.obj [], r)
        | r2 => parseMembers fuel r2 []
      else if c = '[' then
        match skipWs rest with
        | ']' :: r => some (Json.arr [], r)
        | r2 => parseItems fuel r2 []
      else if c = 't' then
        (stripPrefixLit ['r', 'u', 'e'] rest).map (fun r => (Json.bool true, r))
      else if c = 'f' then
        (stripPrefixLit ['a', 'l', 's', 'e'] rest).map (fun r => (Json.bool false, r))
      else if c = 'n' then
        (stripPrefixLit ['u', 'l', 'l'] rest).map (fun r => (Json.null, r))
      else parseNumber (c :: rest)

def parseMembers : Nat → List Char → List (String × Json) →
    Option (Json × List Char)
  | 0, _, _ => none
  | fuel + 1, cs, acc =>
    match skipWs cs with
    | '"' :: rest =>
      match parseStrChars (rest.length + 1) rest [] with
      | none => none
      | some (k, r1) =>
        match skipWs r1 with
        | ':' :: r2 =>
          match parseValue fuel r2 with
          | none => none
          | some (v, r3) =>
            match skipWs r3 with
            | ',' :: r4 => parseMembers fuel r4 (objInsert acc k v)
            | '\x7d' :: r4 => some (Json.obj (objInsert acc k v), r4)
            | _ => none
        | _ => none
    | _ => none

def parseItems : Nat → List Char → List Json → Option (Json × List Char)
  | 0, _, _ => none
  | fuel + 1, cs, acc =>
    match parseValue fuel cs with
    | none => none
    | some (v, r1) =>
      match skipWs r1 with
      | ',' :: r2 => parseItems fuel r2 (acc ++ [v])
      | ']' :: r2 => some (Json.arr (acc ++ [v]), r2)
      | _ => none

end

/-- `json.loads`: parse one value, allow trailing whitespace only;
`none` models a raised `JSONDecodeError`. -/
def jsonLoads (cs : List Char) : Option Json :=
  match parseValue (2 * cs.length + 4) cs with
  | some (v, rest) => if skipWs rest = [] then some v else none
  | none => none

/-! ### `clean_json` (`coding_agent.py` lines 50-66, identical logic in
`MobileWebAgent.clean_json`) -/

/-- `str.find`: index of the first occurrence, `none` for Python's `-1`. -/
def firstIdx (cs : List Char) (c : Char) : Option Nat :=
  match cs with
  | [] => none
  | x :: xs => if x = c then some 0 else (firstIdx xs c).map (· + 1)

/-- `str.rfind`: index of the last occurrence. -/
def lastIdx (cs : List Char) (c : Char) : Option Nat :=
  (firstIdx cs.reverse c).map (fun i => cs.length - 1 - i)

/-- `raw[s:e]` for `0 ≤ s, e` (Python slice semantics on that range). -/
def pySlice (cs : List Char) (s e : Nat) : List Char := (cs.drop s).take (e - s)

/-- The slice from the first `{` to the last `}` inclusive; `none` when
either brace is missing (Python's `start == -1 or end == 0` check). -/
def cleanSlice (cs : List Char) : Option (List Char) :=
  match firstIdx cs '\x7b', lastIdx cs '\x7d' with
  | some s, some l => some (pySlice cs s (l + 1))
  | _, _ => none

/-- The `ERROR` sentinel action built by `clean_json`'s `except` branch. -/
def errorAction (msg : String) : Json :=
  Json.obj [("action", Json.str "ERROR"), ("args", Json.obj [("message", Json.str msg)])]

/-- The result is the `ERROR` sentinel with some diagnostic message. -/
def isErrorAction (a : Json) : Prop := ∃ msg, a = errorAction msg

/-- `clean_json`: slice between the first `{` and the last `}` inclusive
and decode it; every failure (no braces, or `json.loads` raising) is caught
and converted to the `ERROR` sentinel carrying the exception text (the
diagnostic detail of the exception message is abstracted). -/
def clean_json (raw : String) : Json :=
  match cleanSlice raw.toList with
  | none => errorAction "Failed to parse JSON: No JSON found"
  | some js =>
    match jsonLoads js with
    | some v => v
    | none => errorAction "Failed to parse JSON: invalid JSON"

/-! ### Python runtime fragments used by the loops -/

/-- Result of a Python call: a returned value or a raised exception.
Exception messages reproduce the exception's role, not its exact text. -/
inductive PyResult (α : Type) where
  | ok (val : α)
  | exn (msg : String)
deriving DecidableEq, Repr

/-- Python subscription `a["k"]` on a decoded value: the value on a dict
holding the key, a `KeyError` on a dict without it, a `TypeError` on any
non-dict (`coding_agent.py` accesses `action["action"]` unguarded). -/
def pySubscript (a : Json) (k : String) : PyResult Json :=
  match a with
  | Json.obj kvs =>
    match kvs.lookup k with
    | some v => PyResult.ok v
    | none => PyResult.exn ("KeyError: \x27" ++ k ++ "\x27")
  | _ => PyResult.exn "TypeError: value is not subscriptable by a string key"

mutual

/-- Python `repr` of a decoded value.  Non-integer numbers never reach a
formatted message in the agents, so their float repr is schematic. -/
def pyRepr : Json → String
  | .null => "None"
  | .bool b => if b then "True" else "False"
  | .num m e => if e = 0 then toString m else toString m ++ "e" ++ toString e
  | .str s => "\x27" ++ s ++ "\x27"
  | .arr xs => "[" ++ String.intercalate ", " (pyReprList xs) ++ "]"
  | .obj kvs => "\x7b" ++ String.intercalate ", " (pyReprFields kvs) ++ "\x7d"

def pyReprList : List Json → List String
  | [] => []
  | v :: vs => pyRepr v :: pyReprList vs

def pyReprFields : List (String × Json) → List String
  | [] => []
  | (k, v) :: kvs => ("\x27" ++ k ++ "\x27: " ++ pyRepr v) :: pyReprFields kvs

end

/-- Python `str` as used in f-strings: the string itself for strings,
`repr`-like text otherwise. -/
def pyStr : Json → String
  | .str s => s
  | v => pyRepr v

/-- `repr` of a list of tool-name strings, as `f"{list(TOOLS.keys())}"`
renders it (tool names contain no quotes or escapes). -/
def pyStrListRepr (ks : List String) : String :=
  "[" ++ String.intercalate ", " (ks.map (fun k => "\x27" ++ k ++ "\x27")) ++ "]"

/-- A registered tool: receives its decoded JSON `args` (expanded as
keyword arguments) and the current world; `.exn` models the call raising
anywhere inside it (including keyword-binding `TypeError`s), with the world
as left by its side effects so far. -/
abbrev ToolFn (W : Type) := Json → W → PyResult String × W

/-- The tool registry: an insertion-ordered string-keyed mapping. -/
abbrev Registry (W : Type) := List (String × ToolFn W)

def regKeys {W : Type} (T : Registry W) : List String := T.map (·.1)

/-- The pair `tool_name not in TOOLS` / `TOOLS[tool_name]` on a decoded
action value: a string hits the registry, other hashable values are simply
absent, and unhashable values (dict, list) raise `TypeError`. -/
def toolMember {W : Type} (av : Json) (T : Registry W) :
    PyResult (Option (String × ToolFn W)) :=
  match av with
  | Json.str s =>
    match T.lookup s with
    | some f => PyResult.ok (some (s, f))
    | none => PyResult.ok none
  | Json.obj _ => PyResult.exn "TypeError: unhashable type: \x27dict\x27"
  | Json.arr _ => PyResult.exn "TypeError: unhashable type: \x27list\x27"
  | _ => PyResult.ok none

/-- One transcript entry (`history` in the loops). -/
structure Entry where
  role : String
  content : String
deriving DecidableEq, Repr

/-- Outcome of one loop iteration body: return from the function, continue
with updated transcript/world/dispatch-log, or an uncaught exception. -/
inductive StepOut (W : Type) where
  | ret (v : Json)
  | cont (history : List Entry) (w : W) (disp : List String)
  | crash (e : String)

/-- The iteration body hit a `continue`: the loop goes on. -/
def StepOut.isCont {W : Type} : StepOut W → Bool
  | .cont _ _ _ => true
  | _ => false

/-! ### The agent loop, minimal variant (`coding_agent.py` `run_agent`,
lines 317-392)

The model gateway is an oracle `gen : Nat → String` giving the raw text of
the i-th call; the prompt strings assembled from the system prompt, the
goal and the transcript only feed the gateway and never influence the
loop's control flow, so they are not reproduced.  `disp` logs the names of
tools actually invoked. -/

/-- The body of one `for step in range(max_steps)` iteration after the
gateway call returned `raw`. -/
def agent_step {W : Type} (T : Registry W) (raw : String)
    (history : List Entry) (w : W) (disp : List String) : StepOut W :=
  let action := clean_json raw
  match pySubscript action "action" with
  | .exn e => .crash e
  | .ok av =>
    if av = Json.str "ERROR" then
      .cont (history ++ [⟨"assistant", raw⟩,
        ⟨"tool", "JSON parsing failed. Please provide valid JSON."⟩]) w disp
    else if av = Json.str "DONE" then
      .ret (objGetD action "result" (Json.str "Task completed."))
    else
      match toolMember av T with
      | .exn e => .crash e
      | .ok none =>
        .cont (history ++ [⟨"assistant", raw⟩,
          ⟨"tool", "Unknown tool: " ++ pyStr av ++ ". Available: " ++
            pyStrListRepr (regKeys T)⟩]) w disp
      | .ok (some nf) =>
        let r := nf.2 (objGetD action "args" (Json.obj [])) w
        let resStr := match r.1 with
          | .ok s => s
          | .exn e => "Tool execution error: " ++ e
        .cont (history ++ [⟨"assistant", raw⟩, ⟨"tool", resStr⟩]) r.2
          (disp ++ [nf.1])

/-- The fixed message returned when the step budget runs out. -/
def maxStepsMsg (n : Nat) : String :=
  "Max steps (" ++ toString n ++ ") reached without completion."

/-- Result of a whole run: the returned value (or propagated exception),
the final world, the number of gateway calls made, the names of tools
dispatched, and the transcript at exit. -/
structure RunOut (W : Type) where
  result : PyResult Json
  world : W
  calls : Nat
  disp : List String
  history : List Entry

def run_agent_aux {W : Type} (T : Registry W) (gen : Nat → String)
    (max_steps : Nat) :
    Nat → Nat → List Entry → W → List String → RunOut W
  | 0, calls, history, w, disp =>
    ⟨PyResult.ok (Json.str (maxStepsMsg max_steps)), w, calls, disp, history⟩
  | remaining + 1, calls, history, w, disp =>
    let raw := gen calls
    match agent_step T raw history w disp with
    | .ret v => ⟨PyResult.ok v, w, calls + 1, disp, history⟩
    | .crash e => ⟨PyResult.exn e, w, calls + 1, disp, history⟩
    | .cont h2 w2 d2 => run_agent_aux T gen max_steps remaining (calls + 1) h2 w2 d2

/-- `run_agent(user_goal, max_steps)` of `coding_agent.py`.  The goal only
appears inside prompt text, which the gateway oracle already abstracts. -/
def run_agent {W : Type} (T : Registry W) (gen : Nat → String)
    (max_steps : Nat) (w0 : W) : RunOut W :=
  run_agent_aux T gen max_steps max_steps 0 [] w0 []

/-! ### The agent loop, modular variant (`MobileWebAgent.run_agent`,
`mobile_web_agent/core/agent.py` lines 190-295) -/

/-- One iteration body of `MobileWebAgent.run_agent`: defensive
`isinstance`/`"action" in action` check, then the same dispatch, then the
10-step reflection checkpoint (the reflection system is a read-only oracle
`reflect` whose report is appended as an extra tool entry). -/
def mobile_step {W : Type} (T : Registry W) (reflect : W → String)
    (stepIdx : Nat) (raw : String) (history : List Entry) (w : W)
    (disp : List String) : StepOut W :=
  let action := clean_json raw
  match objLookup action "action" with
  | none =>
    .cont (history ++ [⟨"assistant", raw⟩,
      ⟨"tool", "Response must be valid JSON with \x27action\x27 field."⟩]) w disp
  | some av =>
    if av = Json.str "ERROR" then
      .cont (history ++ [⟨"assistant", raw⟩,
        ⟨"tool", "JSON parsing failed. Please provide valid JSON."⟩]) w disp
    else if av = Json.str "DONE" then
      .ret (objGetD action "result" (Json.str "Task completed."))
    else
      match toolMember av T with
      | .exn e => .crash e
      | .ok none =>
        .cont (history ++ [⟨"assistant", raw⟩,
          ⟨"tool", "Unknown tool: " ++ pyStr av ++ ". Available: " ++
            pyStrListRepr (regKeys T)⟩]) w disp
      | .ok (some nf) =>
        let r := nf.2 (objGetD action "args" (Json.obj [])) w
        let resStr := match r.1 with
          | .ok s => s
          | .exn e => "Tool execution error: " ++ e
        let h2 := history ++ [⟨"assistant", raw⟩, ⟨"tool", resStr⟩]
        let h3 := if (stepIdx + 1) % 10 = 0 then
            h2 ++ [⟨"tool", "REFLECTION: " ++ reflect r.2⟩]
          else h2
        .cont h3 r.2 (disp ++ [nf.1])

def mobile_run_aux {W : Type} (T : Registry W) (gen : Nat → String)
    (reflect : W → String) (max_steps : Nat) :
    Nat → Nat → List Entry → W → List String → RunOut W
  | 0, calls, history, w, disp =>
    ⟨PyResult.ok (Json.str (maxStepsMsg max_steps)), w, calls, disp, history⟩
  | remaining + 1, calls, history, w, disp =>
    let raw := gen calls
    match mobile_step T reflect calls raw history w disp with
    | .ret v => ⟨PyResult.ok v, w, calls + 1, disp, history⟩
    | .crash e => ⟨PyResult.exn e, w, calls + 1, disp, history⟩
    | .cont h2 w2 d2 =>
      mobile_run_aux T gen reflect max_steps remaining (calls + 1) h2 w2 d2

/-- `MobileWebAgent.run_agent(user_goal, max_steps)`: the initial
`ollama.health_check()` gate, then the loop. -/
def mobile_run_agent {W : Type} (T : Registry W) (gen : Nat → String)
    (reflect : W → String) (health : Bool) (max_steps : Nat) (w0 : W) :
    RunOut W :=
  if health then mobile_run_aux T gen reflect max_steps max_steps 0 [] w0 []
  else
    ⟨PyResult.ok (Json.str
      "ERROR: Ollama server not running. Please start with \x27ollama serve\x27"),
      w0, 0, [], []⟩

/-! ### Sub-agent restriction and focused loop (`mobile_surf_agent.py`,
`create_specialized_sub_agent` lines 479-524 and `run_focused_task`
lines 526-581) -/

/-- Python substring containment `pat in s`. -/
def listContains (pat : List Char) : List Char → Bool
  | [] => List.isPrefixOf pat []
  | c :: rest => List.isPrefixOf pat (c :: rest) || listContains pat rest

def strContains (s pat : String) : Bool := listContains pat.toList s.toList

/-- `create_specialized_sub_agent`'s registry restriction: keep, in
`allowed` order, exactly the allowed names present in the parent registry
(`restricted_tools[name] = self.tools[name]`). -/
def restrictTools {W : Type} (parent : Registry W) (allowed : List String) :
    Registry W :=
  allowed.filterMap (fun n => (parent.lookup n).map (fun f => (n, f)))

/-- One iteration body of `run_focused_task` after the gateway call: the
`TASK_COMPLETE:` sentinel check on the raw text, then parse, the defensive
`action`-key check, and dispatch against the (restricted) registry.  No
`DONE`/`ERROR` handling exists in this loop. -/
def focused_step {W : Type} (T : Registry W) (raw : String)
    (history : List Entry) (w : W) (disp : List String) : StepOut W :=
  if strContains raw "TASK_COMPLETE:" then
    .ret (Json.str ((raw.replace "TASK_COMPLETE:" "").trim))
  else
    let action := clean_json raw
    match objLookup action "action" with
    | none =>
      .cont (history ++ [⟨"assistant", raw⟩,
        ⟨"tool", "Response must be valid JSON with \x27action\x27 field."⟩]) w disp
    | some av =>
      match toolMember av T with
      | .exn e => .crash e
      | .ok none =>
        .cont (history ++ [⟨"assistant", raw⟩,
          ⟨"tool", "Tool not available: " ++ pyStr av ++ ". Available: " ++
            pyStrListRepr (regKeys T)⟩]) w disp
      | .ok (some nf) =>
        let r := nf.2 (objGetD action "args" (Json.obj [])) w
        let resStr := match r.1 with
          | .ok s => s
          | .exn e => "Tool execution error: " ++ e
        .cont (history ++ [⟨"assistant", raw⟩, ⟨"tool", resStr⟩]) r.2
          (disp ++ [nf.1])

/-! ### Task manager (`mobile_web_agent/core/task_manager.py`; the
module-level `TASKS`/`TASK_COUNTER` versions in `coding_agent.py` lines
193-262 implement the same logic over global state) -/

structure Task where
  id : Nat
  description : String
  status : String
  priority : String
deriving DecidableEq, Repr

structure TaskManager where
  tasks : List Task
  task_counter : Nat
deriving DecidableEq, Repr

def TaskManager.init : TaskManager := ⟨[], 0⟩

/-- `create_task(description, priority)`: increment the counter, append the
task, return the confirmation.  (The Python default `priority="medium"` is
supplied at call sites.)  The priority string is stored unvalidated. -/
def create_task (tm : TaskManager) (description priority : String) :
    TaskManager × String :=
  let c := tm.task_counter + 1
  (⟨tm.tasks ++ [⟨c, description, "pending", priority⟩], c⟩,
    "Created task #" ++ toString c ++ ": " ++ description)

/-- `int(task_id)` on the string argument: optional surrounding whitespace,
optional sign, decimal digits with single underscores between digits.
(Python also accepts non-ASCII decimal digits; not exercised here.) -/
def isPySpace (c : Char) : Bool :=
  c = ' ' || c = '\t' || c = '\n' || c = '\x0d' || c = '\x0b' || c = '\x0c'

def pyStripWs (cs : List Char) : List Char :=
  ((cs.dropWhile isPySpace).reverse.dropWhile isPySpace).reverse

def digitsRest (acc : Nat) : List Char → Option Nat
  | [] => some acc
  | '_' :: c :: cs =>
    if isDigit c then digitsRest (acc * 10 + (c.toNat - 48)) cs else none
  | ['_'] => none
  | c :: cs =>
    if isDigit c then digitsRest (acc * 10 + (c.toNat - 48)) cs else none

def pyInt (s : String) : Option Int :=
  match pyStripWs s.toList with
  | '+' :: c :: cs =>
    if isDigit c then (digitsRest (c.toNat - 48) cs).map Int.ofNat else none
  | '-' :: c :: cs =>
    if isDigit c then (digitsRest (c.toNat - 48) cs).map (fun n => -(n : Int))
    else none
  | c :: cs =>
    if isDigit c then (digitsRest (c.toNat - 48) cs).map Int.ofNat else none
  | [] => none

/-- The linear scan of `complete_task`: the first task whose id matches is
set to completed and the loop returns; `none` when no task matches. -/
def completeGo (l : List Task) (n : Int) (tid : String) :
    Option (List Task × String) :=
  match l with
  | [] => none
  | t :: ts =>
    if (t.id : Int) = n then
      some (⟨t.id, t.description, "completed", t.priority⟩ :: ts,
        "✅ Completed task #" ++ tid ++ ": " ++ t.description)
    else (completeGo ts n tid).map (fun p => (t :: p.1, p.2))

/-- `complete_task(task_id)`. -/
def complete_task (tm : TaskManager) (task_id : String) :
    TaskManager × String :=
  match pyInt task_id with
  | none =>
    (tm, "ERROR: Invalid task ID \x27" ++ task_id ++ "\x27. Use a number.")
  | some n =>
    match completeGo tm.tasks n task_id with
    | some p => (⟨p.1, tm.task_counter⟩, p.2)
    | none => (tm, "ERROR: Task #" ++ task_id ++ " not found")

/-- The linear scan of `update_task`. -/
def updateGo (l : List Task) (n : Int) (tid status : String) :
    Option (List Task × String) :=
  match l with
  | [] => none
  | t :: ts =>
    if (t.id : Int) = n then
      some (⟨t.id, t.description, status, t.priority⟩ :: ts,
        "Updated task #" ++ tid ++ " from \x27" ++ t.status ++ "\x27 to \x27" ++
          status ++ "\x27")
    else (updateGo ts n tid status).map (fun p => (t :: p.1, p.2))

/-- `update_task(task_id, status)`: status validated against the enum,
then the same scan. -/
def update_task (tm : TaskManager) (task_id status : String) :
    TaskManager × String :=
  if status ∉ ["pending", "in_progress", "completed"] then
    (tm, "ERROR: Invalid status \x27" ++ status ++
      "\x27. Use: pending, in_progress, completed")
  else
    match pyInt task_id with
    | none =>
      (tm, "ERROR: Invalid task ID \x27" ++ task_id ++ "\x27. Use a number.")
    | some n =>
      match updateGo tm.tasks n task_id status with
      | some p => (⟨p.1, tm.task_counter⟩, p.2)
      | none => (tm, "ERROR: Task #" ++ task_id ++ " not found")

/-- A call sequence against one manager instance. -/
inductive TMOp where
  | create (description priority : String)
  | complete (task_id : String)
  | update (task_id status : String)
deriving DecidableEq, Repr

def applyOp (tm : TaskManager) : TMOp → TaskManager × String
  | .create d p => create_task tm d p
  | .complete tid => complete_task tm tid
  | .update tid st => update_task tm tid st

def runOps (tm : TaskManager) (ops : List TMOp) : TaskManager :=
  ops.foldl (fun m op => (applyOp m op).1) tm

/-- The ids assigned by the `create_task` calls of a sequence, in call
order. -/
def createdIds (tm : TaskManager) : List TMOp → List Nat
  | [] => []
  | op :: ops =>
    match op with
    | .create _ _ => (tm.task_counter + 1) :: createdIds (applyOp tm op).1 ops
    | _ => createdIds (applyOp tm op).1 ops

def countCreates : List TMOp → Nat
  | [] => 0
  | .create _ _ :: ops => countCreates ops + 1
  | _ :: ops => countCreates ops

/-! ### Code critic scoring (`mobile_web_agent/core/code_critic.py`,
`_calculate_quality_score` lines 234-248) -/

structure CodeIssue where
  type : String
  severity : String
  line_number : Option Int
  message : String
  suggestion : String
  category : String
deriving DecidableEq, Repr

def severity_weights : List (String × Int) :=
  [("critical", -25), ("high", -10), ("medium", -5), ("low", -2)]

/-- `CodeCritic._calculate_quality_score`: 100 plus the summed severity
weights (`severity_weights.get(issue.severity, 0)`), clamped below at 0.
The Python function returns `round(score, 1)` as a float; all weights are
integers, so the rounding is the identity and the score is the integer
modelled here. -/
def calculate_quality_score (issues : List CodeIssue) : Int :=
  if issues = [] then 100
  else
    max 0 (100 +
      (issues.map (fun i => (severity_weights.lookup i.severity).getD 0)).sum)

/-- The spec's weight table (§3), written independently of the source's
association-list lookup, for the refinement statement of C5. -/
def specSeverityWeight (s : String) : Int :=
  if s = "critical" then -25
  else if s = "high" then -10
  else if s = "medium" then -5
  else if s = "low" then -2
  else 0

/-! ### Shell execution gate (`coding_agent.py` `run_bash` lines 125-156
and `FileOperations.run_bash`, `mobile_web_agent/core/file_operations.py`
lines 72-106) -/

/-- The `subprocess.run` outcome for a command, as an oracle: normal
completion with captured streams and return code, `TimeoutExpired`, or any
other exception. -/
inductive ExecOutcome where
  | completed (stdout stderr : String) (returncode : Int)
  | timedOut
  | raised (msg : String)

def allowedCoding : List String :=
  ["pytest", "ls", "echo", "cat", "grep", "pwd", "python3", "python",
   "pip", "which", "wc", "head", "tail", "find", "tree", "git status",
   "git diff", "git log", "npm", "node"]

def allowedMobile : List String :=
  ["npm", "yarn", "pnpm", "node", "python3", "python", "pip",
   "git", "ls", "echo", "cat", "grep", "pwd", "which", "wc", "head", "tail",
   "find", "tree", "jest", "playwright", "cypress", "lighthouse",
   "mkdir", "touch", "rm", "cp", "mv", "chmod"]

/-- `cmd.startswith(a)` (computable form over character lists). -/
def strStartsWith (s pat : String) : Bool := List.isPrefixOf pat.toList s.toList

/-- Assembly of stdout/stderr/return-code into the one result string. -/
def formatBashOutput (stdout stderr : String) (returncode : Int) : String :=
  let out := (if stdout ≠ "" then "STDOUT:\n" ++ stdout else "")
    ++ (if stderr ≠ "" then "STDERR:\n" ++ stderr else "")
    ++ (if returncode ≠ 0 then "Return code: " ++ toString returncode else "")
  if out = "" then "Command completed with no output" else out

/-- `run_bash` of `coding_agent.py`: the prefix allow-list gate, then the
subprocess oracle with its 30s timeout.  Returns the result string and the
list of commands actually handed to the subprocess (empty when the gate
rejects).  The `cwd` argument only reaches the subprocess and is folded
into the oracle. -/
def run_bash_coding (exec : String → ExecOutcome) (cmd : String) :
    String × List String :=
  if !(allowedCoding.any (fun a => strStartsWith cmd a)) then
    ("ERROR: Command not allowed: " ++ cmd ++ ". Allowed: " ++
      String.intercalate ", " allowedCoding, [])
  else
    match exec cmd with
    | .completed so se rc => (formatBashOutput so se rc, [cmd])
    | .timedOut => ("ERROR: Command timed out after 30 seconds", [cmd])
    | .raised m => ("ERROR: " ++ m, [cmd])

/-- `FileOperations.run_bash`: same shape with the mobile allow-list and a
60s timeout. -/
def run_bash_mobile (exec : String → ExecOutcome) (cmd : String) :
    String × List String :=
  if !(allowedMobile.any (fun a => strStartsWith cmd a)) then
    ("ERROR: Command not allowed: " ++ cmd ++ ". Allowed: " ++
      String.intercalate ", " allowedMobile, [])
  else
    match exec cmd with
    | .completed so se rc => (formatBashOutput so se rc, [cmd])
    | .timedOut => ("ERROR: Command timed out after 60 seconds", [cmd])
    | .raised m => ("ERROR: " ++ m, [cmd])

/-- The priority strings of the `create_task` calls of a sequence, in call
order. -/
def createdPrios : List TMOp → List String
  | [] => []
  | .create _ p :: ops => p :: createdPrios ops
  | _ :: ops => createdPrios ops

/-! ### Termination and continuation predicates of the loops -/

/-- The decoded action of a raw response is a dict whose `action` key
holds `"DONE"`. -/
def parsedDone (raw : String) : Prop :=
  objLookup (clean_json raw) "action" = some (Json.str "DONE")

/-- The value the loop returns for a DONE action:
`action.get("result", "Task completed.")`. -/
def doneResult (raw : String) : Json :=
  objGetD (clean_json raw) "result" (Json.str "Task completed.")

/-- The minimal loop's iteration on this response neither returns nor
raises: the decoded action is a dict with an `action` key whose value is
hashable and differs from `"DONE"`. -/
def codingContinues (raw : String) : Bool :=
  match objLookup (clean_json raw) "action" with
  | none => false
  | some (Json.str s) => s != "DONE"
  | some (Json.obj _) => false
  | some (Json.arr _) => false
  | some _ => true

/-- Same for the mobile loop, whose defensive check also turns a missing
`action` key or a non-dict decode into a continuing turn. -/
def mobileContinues (raw : String) : Bool :=
  match objLookup (clean_json raw) "action" with
  | none => true
  | some (Json.str s) => s != "DONE"
  | some (Json.obj _) => false
  | some (Json.arr _) => false
  | some _ => true

/-! ### Concrete tools used by the closed witness statements -/

/-- A tool that always raises (e.g. a bad internal division). -/
def toolBoom : ToolFn (List String) := fun _ w =>
  (PyResult.exn "division by zero", w)

/-- A tool that returns normally. -/
def toolRead : ToolFn (List String) := fun _ w => (PyResult.ok "contents", w)

/-- A read tool over a toy filesystem world (path-content pairs). -/
def fsRead : ToolFn (List (String × String)) := fun _ w =>
  (PyResult.ok "contents", w)

/-- A write tool over the toy filesystem world: it really mutates it. -/
def fsWrite : ToolFn (List (String × String)) := fun _ w =>
  (PyResult.ok "Successfully wrote", w ++ [("f.txt", "x")])

/-! ## Lemmas about the task manager -/

lemma completeGo_map_eq (n : Int) (tid : String) :
    ∀ (l : List Task) (p : List Task × String), completeGo l n tid = some p →
      p.1.map (fun t => (t.id, t.description, t.priority)) =
        l.map (fun t => (t.id, t.description, t.priority))
  | [], p => by simp [completeGo]
  | t :: ts, p => by
    simp only [completeGo]
    split
    · intro hp
      cases hp
      simp
    · intro hp
      rcases Option.map_eq_some'.1 hp with ⟨q, hq, rfl⟩
      simpa using completeGo_map_eq n tid ts q hq

lemma updateGo_map_eq (n : Int) (tid st : String) :
    ∀ (l : List Task) (p : List Task × String), updateGo l n tid st = some p →
      p.1.map (fun t => (t.id, t.description, t.priority)) =
        l.map (fun t => (t.id, t.description, t.priority))
  | [], p => by simp [updateGo]
  | t :: ts, p => by
    simp only [updateGo]
    split
    · intro hp
      cases hp
      simp
    · intro hp
      rcases Option.map_eq_some'.1 hp with ⟨q, hq, rfl⟩
      simpa using updateGo_map_eq n tid st ts q hq

/-- `complete_task` and `update_task` never change the counter, ids,
descriptions or priorities; `create_task` appends its one task. -/
lemma applyOp_counter (tm : TaskManager) (op : TMOp) :
    (applyOp tm op).1.task_counter =
      tm.task_counter + (match op with | .create _ _ => 1 | _ => 0) := by
  cases op with
  | create d p => rfl
  | complete tid =>
    simp only [applyOp, complete_task]
    split
    · rfl
    · split <;> rfl
  | update tid st =>
    simp only [applyOp, update_task]
    split
    · rfl
    · split
      · rfl
      · split <;> rfl

lemma applyOp_map (tm : TaskManager) (op : TMOp) :
    (applyOp tm op).1.tasks.map (fun t => (t.id, t.description, t.priority)) =
      tm.tasks.map (fun t => (t.id, t.description, t.priority)) ++
        (match op with
          | .create d p => [(tm.task_counter + 1, d, p)]
          | _ => []) := by
  cases op with
  | create d p => simp [applyOp, create_task]
  | complete tid =>
    simp only [applyOp, complete_task, List.append_nil]
    split
    · rfl
    · rename_i n _
      rcases hgo : completeGo tm.tasks n tid with _ | p
      · simp [hgo]
      · simpa [hgo] using completeGo_map_eq n tid tm.tasks p hgo
  | update tid st =>
    simp only [applyOp, update_task, List.append_nil]
    split
    · rfl
    · split
      · rfl
      · rename_i n _
        rcases hgo : updateGo tm.tasks n tid st with _ | p
        · simp [hgo]
        · simpa [hgo] using updateGo_map_eq n tid st tm.tasks p hgo

lemma runOps_cons (tm : TaskManager) (op : TMOp) (ops : List TMOp) :
    runOps tm (op :: ops) = runOps (applyOp tm op).1 ops := rfl

lemma runOps_map (ops : List TMOp) : ∀ tm : TaskManager,
    (runOps tm ops).tasks.map (fun t => (t.id, t.description, t.priority)) =
      tm.tasks.map (fun t => (t.id, t.description, t.priority)) ++
        ((createdIds tm ops).zip
          ((ops.filterMap (fun op => match op with
            | .create d p => some (d, p) | _ => none)))).map
          (fun q => (q.1, q.2.1, q.2.2)) := by
  induction ops with
  | nil => intro tm; simp [runOps, createdIds]
  | cons op ops ih =>
    intro tm
    rw [runOps_cons]
    rw [ih]
    rw [applyOp_map]
    cases op with
    | create d p =>
      simp [createdIds, applyOp_counter, List.zip_cons_cons]
    | complete tid =>
      simp [createdIds]
    | update tid st =>
      simp [createdIds]

lemma createdIds_shift (ops : List TMOp) : ∀ tm : TaskManager,
    createdIds tm ops = List.range' (tm.task_counter + 1) (countCreates ops) := by
  induction ops with
  | nil => intro tm; simp [createdIds, countCreates]
  | cons op ops ih =>
    intro tm
    cases op with
    | create d p =>
      have hc : (applyOp tm (TMOp.create d p)).1.task_counter =
          tm.task_counter + 1 := applyOp_counter tm _
      simp only [createdIds, countCreates, ih, hc, List.range'_succ]
    | complete tid =>
      have hc : (applyOp tm (TMOp.complete tid)).1.task_counter =
          tm.task_counter := by simpa using applyOp_counter tm (TMOp.complete tid)
      simp only [createdIds, countCreates, ih, hc]
    | update tid st =>
      have hc : (applyOp tm (TMOp.update tid st)).1.task_counter =
          tm.task_counter := by simpa using applyOp_counter tm (TMOp.update tid st)
      simp only [createdIds, countCreates, ih, hc]

lemma filterMap_pairs_length (ops : List TMOp) :
    (ops.filterMap (fun op => match op with
      | TMOp.create d p => some (d, p) | _ => none)).length = countCreates ops := by
  induction ops with
  | nil => simp [countCreates]
  | cons op ops ih => cases op <;> simp [countCreates, ih]

lemma applyOp_prios (tm : TaskManager) (op : TMOp) :
    (applyOp tm op).1.tasks.map (fun t => t.priority) =
      tm.tasks.map (fun t => t.priority) ++
        (match op with | .create _ p => [p] | _ => []) := by
  have h := congrArg (List.map (fun q : Nat × String × String => q.2.2))
    (applyOp_map tm op)
  cases op <;> simpa [List.map_map, Function.comp] using h

lemma runOps_prios (ops : List TMOp) : ∀ tm : TaskManager,
    (runOps tm ops).tasks.map (fun t => t.priority) =
      tm.tasks.map (fun t => t.priority) ++ createdPrios ops := by
  induction ops with
  | nil => intro tm; simp [runOps, createdPrios]
  | cons op ops ih =>
    intro tm
    rw [runOps_cons, ih, applyOp_prios]
    cases op <;> simp [createdPrios]

lemma createdPrios_mem (x : String) :
    ∀ ops : List TMOp, x ∈ createdPrios ops → ∃ d, TMOp.create d x ∈ ops := by
  intro ops
  induction ops with
  | nil => simp [createdPrios]
  | cons op ops ih =>
    cases op with
    | create d p =>
      simp only [createdPrios, List.mem_cons]
      rintro (rfl | hx)
      · exact ⟨d, Or.inl rfl⟩
      · rcases ih hx with ⟨d2, hd2⟩
        exact ⟨d2, Or.inr hd2⟩
    | complete tid =>
      intro hx
      rcases ih hx with ⟨d2, hd2⟩
      exact ⟨d2, List.mem_cons_of_mem _ hd2⟩
    | update tid st =>
      intro hx
      rcases ih hx with ⟨d2, hd2⟩
      exact ⟨d2, List.mem_cons_of_mem _ hd2⟩

lemma completeGo_idem (n : Int) (tid : String) :
    ∀ l : List Task, (∃ t ∈ l, (t.id : Int) = n) →
      ∃ l2 d, completeGo l n tid =
          some (l2, "✅ Completed task #" ++ tid ++ ": " ++ d) ∧
        completeGo l2 n tid =
          some (l2, "✅ Completed task #" ++ tid ++ ": " ++ d) ∧
        ∃ t ∈ l2, (t.id : Int) = n ∧ t.status = "completed" := by
  intro l
  induction l with
  | nil => simp
  | cons t ts ih =>
    intro hex
    by_cases hid : (t.id : Int) = n
    · refine ⟨⟨t.id, t.description, "completed", t.priority⟩ :: ts,
        t.description, ?_, ?_, ?_⟩
      · simp [completeGo, hid]
      · simp [completeGo, hid]
      · exact ⟨_, List.mem_cons_self _ _, hid, rfl⟩
    · have hex2 : ∃ u ∈ ts, (u.id : Int) = n := by
        rcases hex with ⟨u, hu, hun⟩
        rcases List.mem_cons.1 hu with rfl | hu2
        · exact absurd hun hid
        · exact ⟨u, hu2, hun⟩
      rcases ih hex2 with ⟨l2, d, h1, h2, h3⟩
      refine ⟨t :: l2, d, ?_, ?_, ?_⟩
      · simp [completeGo, hid, h1]
      · simp [completeGo, hid, h2]
      · rcases h3 with ⟨u, hu, hcomp⟩
        exact ⟨u, List.mem_cons_of_mem _ hu, hcomp⟩

/-! ## C4, C9, C10 -/

/-- C4: for every sequence of operations on one manager instance, the ids
assigned by the `create_task` calls are exactly `1..N` in call order
(`N` the number of creations), the stored tasks carry exactly those ids,
and no two tasks share an id — regardless of interleaved
`complete_task`/`update_task` calls. -/
theorem C4_task_id_monotonicity (ops : List TMOp) :
    createdIds TaskManager.init ops = List.range' 1 (countCreates ops) ∧
    (runOps TaskManager.init ops).tasks.map (fun t => t.id) =
      List.range' 1 (countCreates ops) ∧
    ((runOps TaskManager.init ops).tasks.map (fun t => t.id)).Nodup := by
  have hids : createdIds TaskManager.init ops =
      List.range' 1 (countCreates ops) := by
    simpa [TaskManager.init] using createdIds_shift ops TaskManager.init
  have hmap := runOps_map ops TaskManager.init
  have hlen : (createdIds TaskManager.init ops).length ≤
      (ops.filterMap (fun op => match op with
        | TMOp.create d p => some (d, p) | _ => none)).length := by
    rw [hids, filterMap_pairs_length, List.length_range']
  have htasks : (runOps TaskManager.init ops).tasks.map (fun t => t.id) =
      List.range' 1 (countCreates ops) := by
    have h := congrArg (List.map (fun q : Nat × String × String => q.1)) hmap
    simp only [List.map_append, List.map_map] at h
    rw [show ((fun q : Nat × String × String => q.1) ∘
        (fun t : Task => (t.id, t.description, t.priority))) =
        (fun t : Task => t.id) from rfl] at h
    rw [show ((fun q : Nat × String × String => q.1) ∘
        (fun q : Nat × (String × String) => (q.1, q.2.1, q.2.2))) =
        Prod.fst from rfl] at h
    rw [h, show TaskManager.init.tasks = [] from rfl]
    simp only [List.map_nil, List.nil_append]
    rw [List.map_fst_zip _ _ hlen, hids]
  refine ⟨hids, htasks, ?_⟩
  rw [htasks]
  exact List.nodup_range' _ _

/-- C9 (counterexample): `create_task` stores its priority argument
unvalidated, so a single creation with priority `"urgent"` leaves the
manager holding a task whose priority is outside `{low, medium, high}`,
refuting the claimed invariant for arbitrary priority arguments. -/
theorem C9_counterexample :
    ¬ (∀ t ∈ (runOps TaskManager.init [TMOp.create "x" "urgent"]).tasks,
        t.priority ∈ ["low", "medium", "high"]) := by
  decide

/-- C9 (amended): if every `create_task` call of the sequence passes a
priority in `{low, medium, high}` (as the repository's own call sites do,
including the default `"medium"`), then every task stored afterwards has
its priority in that set — `complete_task`/`update_task` never touch
priorities and `create_task` stores exactly the argument. -/
theorem C9_priority_invariant (ops : List TMOp)
    (h : ∀ d p, TMOp.create d p ∈ ops → p ∈ ["low", "medium", "high"]) :
    ∀ t ∈ (runOps TaskManager.init ops).tasks,
      t.priority ∈ ["low", "medium", "high"] := by
  intro t ht
  have hmem : t.priority ∈
      (runOps TaskManager.init ops).tasks.map (fun t => t.priority) :=
    List.mem_map_of_mem _ ht
  rw [runOps_prios ops TaskManager.init] at hmem
  simp only [TaskManager.init, List.map_nil, List.nil_append] at hmem
  rcases createdPrios_mem _ ops hmem with ⟨d, hd⟩
  exact h d t.priority hd

theorem C9_priority_invariant_witness :
    (∀ d p, TMOp.create d p ∈
        [TMOp.create "a" "high", TMOp.complete "1", TMOp.create "b" "medium"] →
      p ∈ ["low", "medium", "high"]) ∧
    ∀ t ∈ (runOps TaskManager.init
        [TMOp.create "a" "high", TMOp.complete "1",
         TMOp.create "b" "medium"]).tasks,
      t.priority ∈ ["low", "medium", "high"] := by
  have hp : ∀ d p, TMOp.create d p ∈
      [TMOp.create "a" "high", TMOp.complete "1", TMOp.create "b" "medium"] →
      p ∈ ["low", "medium", "high"] := by
    intro d p hm
    simp only [List.mem_cons, List.not_mem_nil, or_false] at hm
    rcases hm with h | h | h
    · injection h with h1 h2
      subst h2
      decide
    · exact TMOp.noConfusion h
    · injection h with h1 h2
      subst h2
      decide
  exact ⟨hp, C9_priority_invariant _ hp⟩

/-- C10: `complete_task` is idempotent.  When the id string parses and a
task with that id exists, the call returns the success confirmation, a
second identical call returns the same confirmation, the state after the
second call equals the state after the first, and the addressed task is
completed. -/
theorem C10_complete_idempotent (tm : TaskManager) (tid : String) (n : Int)
    (hp : pyInt tid = some n) (ht : ∃ t ∈ tm.tasks, (t.id : Int) = n) :
    ∃ d, (complete_task tm tid).2 =
        "✅ Completed task #" ++ tid ++ ": " ++ d ∧
      (complete_task (complete_task tm tid).1 tid).2 =
        "✅ Completed task #" ++ tid ++ ": " ++ d ∧
      (complete_task (complete_task tm tid).1 tid).1 =
        (complete_task tm tid).1 ∧
      ∃ t ∈ (complete_task tm tid).1.tasks,
        (t.id : Int) = n ∧ t.status = "completed" := by
  rcases completeGo_idem n tid tm.tasks ht with ⟨l2, d, h1, h2, h3⟩
  refine ⟨d, ?_, ?_, ?_, ?_⟩ <;>
    simp [complete_task, hp, h1, h2, h3]

theorem C10_complete_idempotent_witness :
    pyInt "2" = some 2 ∧
    (∃ t ∈ (TaskManager.mk
        [⟨1, "a", "completed", "medium"⟩, ⟨2, "b", "pending", "low"⟩] 2).tasks,
      (t.id : Int) = 2) ∧
    ∃ d, (complete_task (TaskManager.mk
        [⟨1, "a", "completed", "medium"⟩, ⟨2, "b", "pending", "low"⟩] 2) "2").2 =
        "✅ Completed task #" ++ "2" ++ ": " ++ d ∧
      (complete_task (complete_task (TaskManager.mk
        [⟨1, "a", "completed", "medium"⟩, ⟨2, "b", "pending", "low"⟩] 2) "2").1
          "2").2 = "✅ Completed task #" ++ "2" ++ ": " ++ d ∧
      (complete_task (complete_task (TaskManager.mk
        [⟨1, "a", "completed", "medium"⟩, ⟨2, "b", "pending", "low"⟩] 2) "2").1
          "2").1 =
        (complete_task (TaskManager.mk
          [⟨1, "a", "completed", "medium"⟩, ⟨2, "b", "pending", "low"⟩] 2)
            "2").1 ∧
      ∃ t ∈ (complete_task (TaskManager.mk
          [⟨1, "a", "completed", "medium"⟩, ⟨2, "b", "pending", "low"⟩] 2)
            "2").1.tasks,
        (t.id : Int) = 2 ∧ t.status = "completed" :=
  ⟨by decide, by decide, C10_complete_idempotent _ "2" 2 (by decide) (by decide)⟩

/-! ## C2: the action parser -/

lemma firstIdx_eq_none_iff (cs : List Char) (c : Char) :
    firstIdx cs c = none ↔ c ∉ cs := by
  induction cs with
  | nil => simp [firstIdx]
  | cons x xs ih =>
    by_cases h : x = c
    · subst h
      simp [firstIdx]
    · simp only [firstIdx, if_neg h, Option.map_eq_none', ih, List.mem_cons]
      constructor
      · rintro hn (rfl | hm)
        · exact h rfl
        · exact hn hm
      · intro hn hm
        exact hn (Or.inr hm)

lemma firstIdx_cons_self (cs : List Char) (c : Char) :
    firstIdx (c :: cs) c = some 0 := by simp [firstIdx]

lemma firstIdx_append_not_mem (l1 l2 : List Char) (c : Char) (h : c ∉ l1) :
    firstIdx (l1 ++ l2) c = (firstIdx l2 c).map (· + l1.length) := by
  induction l1 with
  | nil =>
    simp only [List.nil_append, List.length_nil]
    cases firstIdx l2 c <;> simp
  | cons x xs ih =>
    have hx : x ≠ c := by
      rintro rfl
      exact h (List.mem_cons_self x xs)
    have h2 : c ∉ xs := fun hm => h (List.mem_cons_of_mem _ hm)
    rw [List.cons_append,
      show firstIdx (x :: (xs ++ l2)) c =
        (firstIdx (xs ++ l2) c).map (· + 1) from by simp [firstIdx, hx],
      ih h2]
    cases firstIdx l2 c with
    | none => rfl
    | some i =>
      simp only [Option.map_some', List.length_cons, Option.some.injEq]
      omega

lemma cleanSlice_concat (preL objL postL : List Char)
    (hpre : '\x7b' ∉ preL) (hpost : '\x7d' ∉ postL)
    (hhead : objL.head? = some '\x7b') (hlast : objL.getLast? = some '\x7d') :
    cleanSlice (preL ++ objL ++ postL) = some objL := by
  obtain ⟨tl, htl⟩ : ∃ tl, objL = '\x7b' :: tl := by
    cases objL with
    | nil => simp at hhead
    | cons a tl =>
      simp only [List.head?_cons, Option.some.injEq] at hhead
      exact ⟨tl, by rw [hhead]⟩
  obtain ⟨rtl, hrtl⟩ : ∃ rtl, objL.reverse = '\x7d' :: rtl := by
    rcases hrev : objL.reverse with _ | ⟨a, rtl⟩
    · have : objL = [] := by simpa using congrArg List.reverse hrev
      subst this
      simp at hlast
    · have ha : objL.getLast? = some a := by
        rw [← List.head?_reverse, hrev, List.head?_cons]
      rw [hlast] at ha
      have ha2 : a = '\x7d' := by
        injection ha with h0
        exact h0.symm
      exact ⟨rtl, by rw [ha2]⟩
  have hobjlen : 1 ≤ objL.length := by
    rw [htl]
    simp
  have h1 : firstIdx (preL ++ objL ++ postL) '\x7b' = some preL.length := by
    rw [List.append_assoc, firstIdx_append_not_mem _ _ _ hpre, htl,
      List.cons_append, firstIdx_cons_self]
    simp
  have h2 : firstIdx (preL ++ objL ++ postL).reverse '\x7d' =
      some postL.length := by
    rw [show (preL ++ objL ++ postL).reverse =
        postL.reverse ++ (objL.reverse ++ preL.reverse) from by
      simp [List.reverse_append]]
    rw [firstIdx_append_not_mem _ _ _ (by simpa using hpost), hrtl,
      List.cons_append, firstIdx_cons_self]
    simp
  have hlen : (preL ++ objL ++ postL).length =
      preL.length + objL.length + postL.length := by
    simp [List.length_append]
    omega
  have h3 : lastIdx (preL ++ objL ++ postL) '\x7d' =
      some (preL.length + objL.length - 1) := by
    rw [lastIdx, h2, Option.map_some', hlen]
    congr 1
    omega
  rw [cleanSlice, h1, h3]
  have he : preL.length + objL.length - 1 + 1 - preL.length =
      objL.length := by omega
  simp only [pySlice, he]
  rw [List.append_assoc, List.drop_left, List.take_left]

/-- C2 (counterexample): the input `{"a": 1} ok}` contains the single
well-formed JSON object `{"a": 1}` surrounded by prose, but because the
trailing prose contains a `}`, the slice from the first `{` to the last `}`
is not valid JSON and `clean_json` returns the `ERROR` sentinel instead of
the object's decoded content. -/
theorem C2_counterexample :
    jsonLoads "\x7b\"a\": 1\x7d".toList =
      some (Json.obj [("a", Json.num 1 0)]) ∧
    clean_json "\x7b\"a\": 1\x7d ok\x7d" =
      errorAction "Failed to parse JSON: invalid JSON" ∧
    clean_json "\x7b\"a\": 1\x7d ok\x7d" ≠ Json.obj [("a", Json.num 1 0)] := by
  refine ⟨by decide, by decide, by decide⟩

/-- C2 (amended): when the prose before the object contains no `{` and the
prose after it contains no `}`, `clean_json` returns exactly the decoded
content of the embedded object; with no `{` or no `}` anywhere it returns
the `ERROR` sentinel; when the slice between the first `{` and the last `}`
is not valid JSON it returns the `ERROR` sentinel.  The function is total
(every Python exception is caught), so it never raises. -/
theorem C2_parser_extraction (pre obj post raw : String) (v : Json) :
    ('\x7b' ∉ pre.toList → '\x7d' ∉ post.toList →
      obj.toList.head? = some '\x7b' → obj.toList.getLast? = some '\x7d' →
      jsonLoads obj.toList = some v →
      clean_json (pre ++ obj ++ post) = v) ∧
    (('\x7b' ∉ raw.toList ∨ '\x7d' ∉ raw.toList) →
      isErrorAction (clean_json raw)) ∧
    (∀ js, cleanSlice raw.toList = some js → jsonLoads js = none →
      isErrorAction (clean_json raw)) := by
  refine ⟨?_, ?_, ?_⟩
  · intro hpre hpost hhead hlast hload
    have hthree : (pre ++ obj ++ post).toList =
        pre.toList ++ obj.toList ++ post.toList := by
      simp [String.toList, String.data_append]
    rw [clean_json, hthree,
      cleanSlice_concat pre.toList obj.toList post.toList hpre hpost hhead hlast]
    have hload2 : jsonLoads obj.data = some v := hload
    simp [hload, hload2]
  · intro hmiss
    rw [clean_json]
    rcases hcs : cleanSlice raw.toList with _ | js
    · exact ⟨_, rfl⟩
    · exfalso
      rw [cleanSlice] at hcs
      rcases hmiss with hmiss | hmiss
      · rw [(firstIdx_eq_none_iff _ _).2 hmiss] at hcs
        simp at hcs
      · have : firstIdx raw.toList.reverse '\x7d' = none :=
          (firstIdx_eq_none_iff _ _).2 (by simpa using hmiss)
        rw [lastIdx, this] at hcs
        rcases firstIdx raw.toList '\x7b' with _ | s <;> simp at hcs
  · intro js hjs hnone
    rw [clean_json, hjs]
    simp only [hnone]
    exact ⟨_, rfl⟩

theorem C2_parser_extraction_witness :
    ('\x7b' ∉ "answer: ".toList ∧ '\x7d' ∉ " done.".toList ∧
      "\x7b\"a\": 1\x7d".toList.head? = some '\x7b' ∧
      "\x7b\"a\": 1\x7d".toList.getLast? = some '\x7d' ∧
      jsonLoads "\x7b\"a\": 1\x7d".toList =
        some (Json.obj [("a", Json.num 1 0)]) ∧
      clean_json ("answer: " ++ "\x7b\"a\": 1\x7d" ++ " done.") =
        Json.obj [("a", Json.num 1 0)]) ∧
    (('\x7b' ∉ "no braces".toList ∨ '\x7d' ∉ "no braces".toList) ∧
      isErrorAction (clean_json "no braces")) ∧
    (cleanSlice "x\x7b bad \x7dy".toList = some "\x7b bad \x7d".toList ∧
      jsonLoads "\x7b bad \x7d".toList = none ∧
      isErrorAction (clean_json "x\x7b bad \x7dy")) :=
  ⟨⟨by decide, by decide, by decide, by decide, by decide,
      (C2_parser_extraction "answer: " "\x7b\"a\": 1\x7d" " done." "" _).1
        (by decide) (by decide) (by decide) (by decide) (by decide)⟩,
    ⟨Or.inl (by decide),
      (C2_parser_extraction "" "" "" "no braces" Json.null).2.1
        (Or.inl (by decide))⟩,
    ⟨by decide, by decide,
      (C2_parser_extraction "" "" "" "x\x7b bad \x7dy" Json.null).2.2
        ("\x7b bad \x7d".toList) (by decide) (by decide)⟩⟩

/-! ## C5: code-critic score -/

lemma severity_lookup_eq (s : String) :
    (severity_weights.lookup s).getD 0 = specSeverityWeight s := by
  by_cases h1 : s = "critical"
  · subst h1; rfl
  by_cases h2 : s = "high"
  · subst h2; rfl
  by_cases h3 : s = "medium"
  · subst h3; rfl
  by_cases h4 : s = "low"
  · subst h4; rfl
  have hl : severity_weights.lookup s = none := by
    simp [severity_weights, List.lookup, beq_eq_false_iff_ne.2 h1,
      beq_eq_false_iff_ne.2 h2, beq_eq_false_iff_ne.2 h3,
      beq_eq_false_iff_ne.2 h4]
  rw [hl]
  simp [specSeverityWeight, h1, h2, h3, h4]

lemma calculate_quality_score_eq (l : List CodeIssue) :
    calculate_quality_score l =
      max 0 (100 + (l.map (fun i => specSeverityWeight i.severity)).sum) := by
  unfold calculate_quality_score
  split
  · rename_i h
    subst h
    simp
  · simp only [severity_lookup_eq]

/-- C5: the quality score equals `max(0, 100 + Σ severity weights)` with
the spec's weight table; the score is a function of the issue list, so two
critiques of identical input give identical scores; and appending one
critical-severity issue lowers the score to at most the original minus 25,
clamped at 0. -/
theorem C5_score_properties (issues issues2 : List CodeIssue)
    (extra : CodeIssue) (hsev : extra.severity = "critical")
    (heq : issues2 = issues) :
    calculate_quality_score issues =
      max 0 (100 + (issues.map (fun i => specSeverityWeight i.severity)).sum) ∧
    calculate_quality_score issues2 = calculate_quality_score issues ∧
    calculate_quality_score (issues ++ [extra]) ≤
      max 0 (calculate_quality_score issues - 25) := by
  refine ⟨calculate_quality_score_eq issues, by rw [heq], ?_⟩
  rw [calculate_quality_score_eq, calculate_quality_score_eq]
  have hsum : (List.map (fun i => specSeverityWeight i.severity)
      (issues ++ [extra])).sum =
      (issues.map (fun i => specSeverityWeight i.severity)).sum + (-25) := by
    simp [hsev, specSeverityWeight]
  rw [hsum]
  simp only [max_def]
  split_ifs <;> omega

theorem C5_score_properties_witness :
    (CodeIssue.mk "security" "critical" none "m" "s" "secrets").severity =
      "critical" ∧
    ([CodeIssue.mk "style" "low" none "m" "s" "line_length"] :
      List CodeIssue) = [CodeIssue.mk "style" "low" none "m" "s" "line_length"] ∧
    (calculate_quality_score [CodeIssue.mk "style" "low" none "m" "s" "line_length"] =
      max 0 (100 + (List.map (fun i => specSeverityWeight i.severity)
        [CodeIssue.mk "style" "low" none "m" "s" "line_length"]).sum) ∧
    calculate_quality_score [CodeIssue.mk "style" "low" none "m" "s" "line_length"] =
      calculate_quality_score [CodeIssue.mk "style" "low" none "m" "s" "line_length"] ∧
    calculate_quality_score ([CodeIssue.mk "style" "low" none "m" "s" "line_length"] ++
        [CodeIssue.mk "security" "critical" none "m" "s" "secrets"]) ≤
      max 0 (calculate_quality_score
        [CodeIssue.mk "style" "low" none "m" "s" "line_length"] - 25)) :=
  ⟨rfl, rfl, C5_score_properties _ _ _ rfl rfl⟩

/-! ## C7: shell-command gate -/

/-- C7: a command matching no allowed prefix yields the not-allowed error
and nothing is executed; an allowed command whose subprocess times out
yields the variant's timeout error string (30s minimal, 60s mobile); the
functions are total, so no exception reaches the caller. -/
theorem C7_bash_gate (exec : String → ExecOutcome) (cmd : String) :
    ((allowedCoding.any (fun a => strStartsWith cmd a)) = false →
      run_bash_coding exec cmd =
        ("ERROR: Command not allowed: " ++ cmd ++ ". Allowed: " ++
          String.intercalate ", " allowedCoding, [])) ∧
    ((allowedMobile.any (fun a => strStartsWith cmd a)) = false →
      run_bash_mobile exec cmd =
        ("ERROR: Command not allowed: " ++ cmd ++ ". Allowed: " ++
          String.intercalate ", " allowedMobile, [])) ∧
    ((allowedCoding.any (fun a => strStartsWith cmd a)) = true →
      exec cmd = ExecOutcome.timedOut →
      run_bash_coding exec cmd =
        ("ERROR: Command timed out after 30 seconds", [cmd])) ∧
    ((allowedMobile.any (fun a => strStartsWith cmd a)) = true →
      exec cmd = ExecOutcome.timedOut →
      run_bash_mobile exec cmd =
        ("ERROR: Command timed out after 60 seconds", [cmd])) := by
  refine ⟨fun h => ?_, fun h => ?_, fun h ht => ?_, fun h ht => ?_⟩
  · simp [run_bash_coding, h]
  · simp [run_bash_mobile, h]
  · simp [run_bash_coding, h, ht]
  · simp [run_bash_mobile, h, ht]

theorem C7_bash_gate_witness :
    (allowedCoding.any (fun a => strStartsWith "curl http://x" a)) = false ∧
    (allowedMobile.any (fun a => strStartsWith "curl http://x" a)) = false ∧
    (allowedCoding.any (fun a => strStartsWith "ls -la" a)) = true ∧
    run_bash_coding (fun _ => ExecOutcome.timedOut) "curl http://x" =
      ("ERROR: Command not allowed: " ++ "curl http://x" ++ ". Allowed: " ++
        String.intercalate ", " allowedCoding, []) ∧
    run_bash_mobile (fun _ => ExecOutcome.timedOut) "curl http://x" =
      ("ERROR: Command not allowed: " ++ "curl http://x" ++ ". Allowed: " ++
        String.intercalate ", " allowedMobile, []) ∧
    run_bash_coding (fun _ => ExecOutcome.timedOut) "ls -la" =
      ("ERROR: Command timed out after 30 seconds", ["ls -la"]) ∧
    run_bash_mobile (fun _ => ExecOutcome.timedOut) "ls -la" =
      ("ERROR: Command timed out after 60 seconds", ["ls -la"]) :=
  ⟨by decide, by decide, by decide,
    (C7_bash_gate (fun _ => ExecOutcome.timedOut) "curl http://x").1 (by decide),
    (C7_bash_gate (fun _ => ExecOutcome.timedOut) "curl http://x").2.1 (by decide),
    (C7_bash_gate (fun _ => ExecOutcome.timedOut) "ls -la").2.2.1 (by decide) rfl,
    (C7_bash_gate (fun _ => ExecOutcome.timedOut) "ls -la").2.2.2 (by decide) rfl⟩

/-! ## Lemmas about the agent loops -/

lemma pySubscript_of_lookup {a : Json} {k : String} {v : Json}
    (h : objLookup a k = some v) : pySubscript a k = PyResult.ok v := by
  cases a <;> simp_all [objLookup, pySubscript]

lemma agent_step_done {W : Type} (T : Registry W) (raw : String)
    (hd : parsedDone raw) (history : List Entry) (w : W)
    (disp : List String) :
    agent_step T raw history w disp = StepOut.ret (doneResult raw) := by
  have hsub := pySubscript_of_lookup hd
  simp [agent_step, hsub, doneResult]

lemma mobile_step_done {W : Type} (T : Registry W) (reflect : W → String)
    (stepIdx : Nat) (raw : String) (hd : parsedDone raw)
    (history : List Entry) (w : W) (disp : List String) :
    mobile_step T reflect stepIdx raw history w disp =
      StepOut.ret (doneResult raw) := by
  have hd2 : objLookup (clean_json raw) "action" = some (Json.str "DONE") := hd
  simp [mobile_step, hd2, doneResult]

lemma agent_step_cont {W : Type} (T : Registry W) (raw : String)
    (hc : codingContinues raw = true) (history : List Entry) (w : W)
    (disp : List String) :
    (agent_step T raw history w disp).isCont = true := by
  rcases hl : objLookup (clean_json raw) "action" with _ | av
  · simp [codingContinues, hl] at hc
  · have hsub := pySubscript_of_lookup hl
    cases av with
    | str s =>
      have hsD : s ≠ "DONE" := by
        simp [codingContinues, hl] at hc
        simpa using hc
      by_cases hs : s = "ERROR"
      · subst hs
        simp [agent_step, hsub, StepOut.isCont]
      · rcases hm : T.lookup s with _ | f
        · simp [agent_step, hsub, toolMember, hm, hs, hsD, StepOut.isCont]
        · rcases hf : f (objGetD (clean_json raw) "args" (Json.obj [])) w
            with ⟨r1, w2⟩
          cases r1 with
          | ok sres =>
            simp [agent_step, hsub, toolMember, hm, hs, hsD, hf,
              StepOut.isCont]
          | exn e =>
            simp [agent_step, hsub, toolMember, hm, hs, hsD, hf,
              StepOut.isCont]
    | null => simp [agent_step, hsub, toolMember, StepOut.isCont]
    | bool b => simp [agent_step, hsub, toolMember, StepOut.isCont]
    | num m e => simp [agent_step, hsub, toolMember, StepOut.isCont]
    | arr xs => simp [codingContinues, hl] at hc
    | obj kvs => simp [codingContinues, hl] at hc

lemma mobile_step_cont {W : Type} (T : Registry W) (reflect : W → String)
    (stepIdx : Nat) (raw : String) (hc : mobileContinues raw = true)
    (history : List Entry) (w : W) (disp : List String) :
    (mobile_step T reflect stepIdx raw history w disp).isCont = true := by
  rcases hl : objLookup (clean_json raw) "action" with _ | av
  · simp [mobile_step, hl, StepOut.isCont]
  · cases av with
    | str s =>
      have hsD : s ≠ "DONE" := by
        simp [mobileContinues, hl] at hc
        simpa using hc
      by_cases hs : s = "ERROR"
      · subst hs
        simp [mobile_step, hl, StepOut.isCont]
      · rcases hm : T.lookup s with _ | f
        · simp [mobile_step, hl, toolMember, hm, hs, hsD, StepOut.isCont]
        · rcases hf : f (objGetD (clean_json raw) "args" (Json.obj [])) w
            with ⟨r1, w2⟩
          cases r1 with
          | ok sres =>
            simp [mobile_step, hl, toolMember, hm, hs, hsD, hf,
              StepOut.isCont]
          | exn e =>
            simp [mobile_step, hl, toolMember, hm, hs, hsD, hf,
              StepOut.isCont]
    | null => simp [mobile_step, hl, toolMember, StepOut.isCont]
    | bool b => simp [mobile_step, hl, toolMember, StepOut.isCont]
    | num m e => simp [mobile_step, hl, toolMember, StepOut.isCont]
    | arr xs => simp [mobileContinues, hl] at hc
    | obj kvs => simp [mobileContinues, hl] at hc

lemma run_agent_aux_succ {W : Type} (T : Registry W) (gen : Nat → String)
    (ms r calls : Nat) (history : List Entry) (w : W) (disp : List String) :
    run_agent_aux T gen ms (r + 1) calls history w disp =
      match agent_step T (gen calls) history w disp with
      | .ret v => ⟨PyResult.ok v, w, calls + 1, disp, history⟩
      | .crash e => ⟨PyResult.exn e, w, calls + 1, disp, history⟩
      | .cont h2 w2 d2 => run_agent_aux T gen ms r (calls + 1) h2 w2 d2 := rfl

lemma mobile_run_aux_succ {W : Type} (T : Registry W) (gen : Nat → String)
    (reflect : W → String) (ms r calls : Nat) (history : List Entry) (w : W)
    (disp : List String) :
    mobile_run_aux T gen reflect ms (r + 1) calls history w disp =
      match mobile_step T reflect calls (gen calls) history w disp with
      | .ret v => ⟨PyResult.ok v, w, calls + 1, disp, history⟩
      | .crash e => ⟨PyResult.exn e, w, calls + 1, disp, history⟩
      | .cont h2 w2 d2 =>
        mobile_run_aux T gen reflect ms r (calls + 1) h2 w2 d2 := rfl

lemma run_agent_aux_all_cont {W : Type} (T : Registry W) (gen : Nat → String)
    (max_steps : Nat) (hc : ∀ i, codingContinues (gen i) = true) :
    ∀ (remaining calls : Nat) (history : List Entry) (w : W)
      (disp : List String),
      (run_agent_aux T gen max_steps remaining calls history w disp).result =
        PyResult.ok (Json.str (maxStepsMsg max_steps)) ∧
      (run_agent_aux T gen max_steps remaining calls history w disp).calls =
        calls + remaining := by
  intro remaining
  induction remaining with
  | zero => exact fun calls h w d => ⟨rfl, rfl⟩
  | succ r ih =>
    intro calls h w d
    have hic := agent_step_cont T (gen calls) (hc calls) h w d
    rcases hstep : agent_step T (gen calls) h w d with v | ⟨h2, w2, d2⟩ | e
    · rw [hstep] at hic
      exact absurd hic (by simp [StepOut.isCont])
    · rw [run_agent_aux_succ, hstep]
      have hr := ih (calls + 1) h2 w2 d2
      refine ⟨hr.1, ?_⟩
      show (run_agent_aux T gen max_steps r (calls + 1) h2 w2 d2).calls =
        calls + (r + 1)
      rw [hr.2]
      omega
    · rw [hstep] at hic
      exact absurd hic (by simp [StepOut.isCont])

lemma mobile_run_aux_all_cont {W : Type} (T : Registry W)
    (gen : Nat → String) (reflect : W → String) (max_steps : Nat)
    (hc : ∀ i, mobileContinues (gen i) = true) :
    ∀ (remaining calls : Nat) (history : List Entry) (w : W)
      (disp : List String),
      (mobile_run_aux T gen reflect max_steps remaining calls
          history w disp).result =
        PyResult.ok (Json.str (maxStepsMsg max_steps)) ∧
      (mobile_run_aux T gen reflect max_steps remaining calls
          history w disp).calls = calls + remaining := by
  intro remaining
  induction remaining with
  | zero => exact fun calls h w d => ⟨rfl, rfl⟩
  | succ r ih =>
    intro calls h w d
    have hic := mobile_step_cont T reflect calls (gen calls) (hc calls) h w d
    rcases hstep : mobile_step T reflect calls (gen calls) h w d
      with v | ⟨h2, w2, d2⟩ | e
    · rw [hstep] at hic
      exact absurd hic (by simp [StepOut.isCont])
    · rw [mobile_run_aux_succ, hstep]
      have hr := ih (calls + 1) h2 w2 d2
      refine ⟨hr.1, ?_⟩
      show (mobile_run_aux T gen reflect max_steps r (calls + 1)
        h2 w2 d2).calls = calls + (r + 1)
      rw [hr.2]
      omega
    · rw [hstep] at hic
      exact absurd hic (by simp [StepOut.isCont])

/-! ## C1: loop termination -/

/-- C1 (counterexample): a gateway that always answers `{"x": 1}` never
produces a DONE action, yet the minimal loop (`coding_agent.py`) raises a
`KeyError` out of `run_agent` after a single gateway call — it neither
makes `max_steps = 2` calls nor returns the max-steps-exceeded message. -/
theorem C1_counterexample :
    (run_agent ([] : Registry Unit) (fun _ => "\x7b\"x\": 1\x7d") 2 ()).result =
      PyResult.exn "KeyError: \x27action\x27" ∧
    (run_agent ([] : Registry Unit) (fun _ => "\x7b\"x\": 1\x7d") 2 ()).calls
      = 1 ∧
    (run_agent ([] : Registry Unit) (fun _ => "\x7b\"x\": 1\x7d") 2 ()).result
      ≠ PyResult.ok (Json.str (maxStepsMsg 2)) :=
  ⟨by decide, by decide, by decide⟩

/-- C1 (amended): for every step budget `max_steps ≥ 1`, if the first
gateway response parses to a DONE action, both loop variants return that
action's result after exactly one gateway call, with no tool dispatched
and the world untouched; and if the gateway never produces a DONE action
*and every response is one the loop's guards handle* (decoded `action`
value present — automatic in the mobile variant — and not itself a dict or
list), the loop makes exactly `max_steps` gateway calls and returns the
fixed max-steps-exceeded message.  DONE remains the only successful
terminal state; unhandled responses instead raise (see the
counterexample). -/
theorem C1_loop_termination {W : Type} (T : Registry W) (gen : Nat → String)
    (reflect : W → String) (max_steps : Nat) (w0 : W) :
    (1 ≤ max_steps → parsedDone (gen 0) →
      run_agent T gen max_steps w0 =
        ⟨PyResult.ok (doneResult (gen 0)), w0, 1, [], []⟩) ∧
    (1 ≤ max_steps → parsedDone (gen 0) →
      mobile_run_agent T gen reflect true max_steps w0 =
        ⟨PyResult.ok (doneResult (gen 0)), w0, 1, [], []⟩) ∧
    ((∀ i, codingContinues (gen i) = true) →
      (run_agent T gen max_steps w0).result =
        PyResult.ok (Json.str (maxStepsMsg max_steps)) ∧
      (run_agent T gen max_steps w0).calls = max_steps) ∧
    ((∀ i, mobileContinues (gen i) = true) →
      (mobile_run_agent T gen reflect true max_steps w0).result =
        PyResult.ok (Json.str (maxStepsMsg max_steps)) ∧
      (mobile_run_agent T gen reflect true max_steps w0).calls = max_steps) := by
  refine ⟨?_, ?_, ?_, ?_⟩
  · intro hms hd
    obtain ⟨m, rfl⟩ : ∃ m, max_steps = m + 1 := ⟨max_steps - 1, by omega⟩
    rw [run_agent, run_agent_aux_succ, agent_step_done T (gen 0) hd [] w0 []]
  · intro hms hd
    obtain ⟨m, rfl⟩ : ∃ m, max_steps = m + 1 := ⟨max_steps - 1, by omega⟩
    rw [mobile_run_agent, if_pos rfl, mobile_run_aux_succ,
      mobile_step_done T reflect 0 (gen 0) hd [] w0 []]
  · intro hc
    have h := run_agent_aux_all_cont T gen max_steps hc max_steps 0 [] w0 []
    exact ⟨h.1, by rw [run_agent, h.2]; omega⟩
  · intro hc
    have h := mobile_run_aux_all_cont T gen reflect max_steps hc
      max_steps 0 [] w0 []
    exact ⟨h.1, by rw [mobile_run_agent, if_pos rfl, h.2]; omega⟩

theorem C1_loop_termination_witness :
    parsedDone "\x7b\"action\": \"DONE\", \"result\": \"x\"\x7d" ∧
    (∀ i : Nat, codingContinues ((fun _ => "no json") i) = true) ∧
    (∀ i : Nat, mobileContinues ((fun _ => "no json") i) = true) ∧
    run_agent ([] : Registry Unit)
        (fun _ => "\x7b\"action\": \"DONE\", \"result\": \"x\"\x7d") 5 () =
      ⟨PyResult.ok
        (doneResult ((fun _ : Nat =>
          "\x7b\"action\": \"DONE\", \"result\": \"x\"\x7d") 0)), (), 1, [], []⟩ ∧
    mobile_run_agent ([] : Registry Unit)
        (fun _ => "\x7b\"action\": \"DONE\", \"result\": \"x\"\x7d")
        (fun _ => "") true 5 () =
      ⟨PyResult.ok
        (doneResult ((fun _ : Nat =>
          "\x7b\"action\": \"DONE\", \"result\": \"x\"\x7d") 0)), (), 1, [], []⟩ ∧
    (run_agent ([] : Registry Unit) (fun _ => "no json") 3 ()).result =
      PyResult.ok (Json.str (maxStepsMsg 3)) ∧
    (run_agent ([] : Registry Unit) (fun _ => "no json") 3 ()).calls = 3 ∧
    (mobile_run_agent ([] : Registry Unit) (fun _ => "no json")
        (fun _ => "") true 3 ()).result =
      PyResult.ok (Json.str (maxStepsMsg 3)) ∧
    (mobile_run_agent ([] : Registry Unit) (fun _ => "no json")
        (fun _ => "") true 3 ()).calls = 3 := by
  have hd : parsedDone "\x7b\"action\": \"DONE\", \"result\": \"x\"\x7d" := by
    show objLookup
        (clean_json "\x7b\"action\": \"DONE\", \"result\": \"x\"\x7d")
        "action" = some (Json.str "DONE")
    decide
  have hcc : ∀ i : Nat,
      codingContinues ((fun _ : Nat => "no json") i) = true := by
    intro i
    show codingContinues "no json" = true
    decide
  have hmc : ∀ i : Nat,
      mobileContinues ((fun _ : Nat => "no json") i) = true := by
    intro i
    show mobileContinues "no json" = true
    decide
  exact ⟨hd, hcc, hmc,
    (C1_loop_termination ([] : Registry Unit) _ (fun _ => "") 5 ()).1
      (by omega) hd,
    (C1_loop_termination ([] : Registry Unit) _ (fun _ => "") 5 ()).2.1
      (by omega) hd,
    ((C1_loop_termination ([] : Registry Unit) (fun _ => "no json")
      (fun _ => "") 3 ()).2.2.1 hcc).1,
    ((C1_loop_termination ([] : Registry Unit) (fun _ => "no json")
      (fun _ => "") 3 ()).2.2.1 hcc).2,
    ((C1_loop_termination ([] : Registry Unit) (fun _ => "no json")
      (fun _ => "") 3 ()).2.2.2 hmc).1,
    ((C1_loop_termination ([] : Registry Unit) (fun _ => "no json")
      (fun _ => "") 3 ()).2.2.2 hmc).2⟩

/-! ## C3: dispatch totality -/

/-- C3: a registered tool whose call raises internally is caught at the
dispatch boundary — the loop appends the string `"Tool execution error:
<message>"` to the transcript and continues with the tool's world; an
action name absent from the registry produces the result string
`"Unknown tool: <name>. Available: ..."` (containing the literal requested
name), appended to the transcript with the world untouched; and a
continuing iteration makes the loop proceed to the next step rather than
raise or terminate.  Both loop variants are covered (the mobile
tool-error case is stated off the 10-step reflection checkpoint). -/
theorem C3_dispatch_total {W : Type} (T : Registry W)
    (reflect : W → String) (stepIdx : Nat) (gen : Nat → String)
    (raw name : String) (f : ToolFn W) (m : String)
    (history h2 : List Entry) (w w2 : W) (disp d2 : List String)
    (max_steps remaining calls : Nat) :
    (objLookup (clean_json raw) "action" = some (Json.str name) →
      name ≠ "ERROR" → name ≠ "DONE" →
      T.lookup name = some f →
      f (objGetD (clean_json raw) "args" (Json.obj [])) w =
        (PyResult.exn m, w2) →
      agent_step T raw history w disp =
        StepOut.cont (history ++ [⟨"assistant", raw⟩,
          ⟨"tool", "Tool execution error: " ++ m⟩]) w2 (disp ++ [name])) ∧
    (objLookup (clean_json raw) "action" = some (Json.str name) →
      name ≠ "ERROR" → name ≠ "DONE" →
      T.lookup name = none →
      agent_step T raw history w disp =
        StepOut.cont (history ++ [⟨"assistant", raw⟩,
          ⟨"tool", "Unknown tool: " ++ name ++ ". Available: " ++
            pyStrListRepr (regKeys T)⟩]) w disp) ∧
    (objLookup (clean_json raw) "action" = some (Json.str name) →
      name ≠ "ERROR" → name ≠ "DONE" →
      T.lookup name = some f →
      f (objGetD (clean_json raw) "args" (Json.obj [])) w =
        (PyResult.exn m, w2) →
      (stepIdx + 1) % 10 ≠ 0 →
      mobile_step T reflect stepIdx raw history w disp =
        StepOut.cont (history ++ [⟨"assistant", raw⟩,
          ⟨"tool", "Tool execution error: " ++ m⟩]) w2 (disp ++ [name])) ∧
    (objLookup (clean_json raw) "action" = some (Json.str name) →
      name ≠ "ERROR" → name ≠ "DONE" →
      T.lookup name = none →
      mobile_step T reflect stepIdx raw history w disp =
        StepOut.cont (history ++ [⟨"assistant", raw⟩,
          ⟨"tool", "Unknown tool: " ++ name ++ ". Available: " ++
            pyStrListRepr (regKeys T)⟩]) w disp) ∧
    (agent_step T (gen calls) history w disp = StepOut.cont h2 w2 d2 →
      run_agent_aux T gen max_steps (remaining + 1) calls history w disp =
        run_agent_aux T gen max_steps remaining (calls + 1) h2 w2 d2) := by
  refine ⟨?_, ?_, ?_, ?_, ?_⟩
  · intro hl hne hnd hm hf
    have hsub := pySubscript_of_lookup hl
    simp [agent_step, hsub, toolMember, hm, hne, hnd, hf, pyStr]
  · intro hl hne hnd hm
    have hsub := pySubscript_of_lookup hl
    simp [agent_step, hsub, toolMember, hm, hne, hnd, pyStr]
  · intro hl hne hnd hm hf hrefl
    simp [mobile_step, hl, toolMember, hm, hne, hnd, hf, hrefl]
  · intro hl hne hnd hm
    simp [mobile_step, hl, toolMember, hm, hne, hnd, pyStr]
  · intro hstep
    rw [run_agent_aux_succ, hstep]

theorem C3_dispatch_total_witness :
    (objLookup (clean_json "\x7b\"action\": \"boom\"\x7d") "action" =
      some (Json.str "boom") ∧
    List.lookup "boom" [("boom", toolBoom)] = some toolBoom ∧
    toolBoom (objGetD (clean_json "\x7b\"action\": \"boom\"\x7d") "args"
      (Json.obj [])) ["w0"] = (PyResult.exn "division by zero", ["w0"]) ∧
    agent_step [("boom", toolBoom)] "\x7b\"action\": \"boom\"\x7d" [] ["w0"] [] =
      StepOut.cont ([] ++ [⟨"assistant", "\x7b\"action\": \"boom\"\x7d"⟩,
        ⟨"tool", "Tool execution error: " ++ "division by zero"⟩])
        ["w0"] ([] ++ ["boom"])) ∧
    (List.lookup "write_file" [("read_file", toolRead)] = none ∧
    agent_step [("read_file", toolRead)] "\x7b\"action\": \"write_file\"\x7d"
        [] ["w0"] [] =
      StepOut.cont ([] ++ [⟨"assistant", "\x7b\"action\": \"write_file\"\x7d"⟩,
        ⟨"tool", "Unknown tool: " ++ "write_file" ++ ". Available: " ++
          pyStrListRepr (regKeys [("read_file", toolRead)])⟩]) ["w0"] []) ∧
    (mobile_step [("read_file", toolRead)] (fun _ => "") 0
        "\x7b\"action\": \"write_file\"\x7d" [] ["w0"] [] =
      StepOut.cont ([] ++ [⟨"assistant", "\x7b\"action\": \"write_file\"\x7d"⟩,
        ⟨"tool", "Unknown tool: " ++ "write_file" ++ ". Available: " ++
          pyStrListRepr (regKeys [("read_file", toolRead)])⟩]) ["w0"] []) ∧
    (agent_step ([("read_file", toolRead)] : Registry (List String))
        ((fun _ : Nat => "\x7b\"action\": \"write_file\"\x7d") 0) [] ["w0"] [] =
      StepOut.cont [⟨"assistant", "\x7b\"action\": \"write_file\"\x7d"⟩,
        ⟨"tool", "Unknown tool: write_file. Available: " ++
          pyStrListRepr (regKeys [("read_file", toolRead)])⟩] ["w0"] [] →
      run_agent_aux [("read_file", toolRead)]
          (fun _ => "\x7b\"action\": \"write_file\"\x7d") 2 (1 + 1) 0 [] ["w0"] [] =
        run_agent_aux [("read_file", toolRead)]
          (fun _ => "\x7b\"action\": \"write_file\"\x7d") 2 1 (0 + 1)
          [⟨"assistant", "\x7b\"action\": \"write_file\"\x7d"⟩,
            ⟨"tool", "Unknown tool: write_file. Available: " ++
              pyStrListRepr (regKeys [("read_file", toolRead)])⟩] ["w0"] []) := by
  have hl : objLookup (clean_json "\x7b\"action\": \"boom\"\x7d") "action" =
      some (Json.str "boom") := by decide
  have hl2 : objLookup (clean_json "\x7b\"action\": \"write_file\"\x7d")
      "action" = some (Json.str "write_file") := by decide
  refine ⟨⟨hl, rfl, rfl, ?_⟩, ⟨rfl, ?_⟩, ?_, ?_⟩
  · exact (C3_dispatch_total [("boom", toolBoom)] (fun _ => "") 0
      (fun _ => "") "\x7b\"action\": \"boom\"\x7d" "boom" toolBoom
      "division by zero" [] [] ["w0"] ["w0"] [] [] 0 0 0).1
      hl (by decide) (by decide) rfl rfl
  · exact (C3_dispatch_total [("read_file", toolRead)] (fun _ => "") 0
      (fun _ => "") "\x7b\"action\": \"write_file\"\x7d" "write_file" toolRead
      "" [] [] ["w0"] ["w0"] [] [] 0 0 0).2.1
      hl2 (by decide) (by decide) rfl
  · exact (C3_dispatch_total [("read_file", toolRead)] (fun _ => "") 0
      (fun _ => "") "\x7b\"action\": \"write_file\"\x7d" "write_file" toolRead
      "" [] [] ["w0"] ["w0"] [] [] 0 0 0).2.2.2.1
      hl2 (by decide) (by decide) rfl
  · exact fun hstep =>
      (C3_dispatch_total ([("read_file", toolRead)] : Registry (List String))
        (fun _ => "") 0 (fun _ => "\x7b\"action\": \"write_file\"\x7d")
        "" "" toolRead ""
        [] [⟨"assistant", "\x7b\"action\": \"write_file\"\x7d"⟩,
          ⟨"tool", "Unknown tool: write_file. Available: " ++
            pyStrListRepr (regKeys [("read_file", toolRead)])⟩]
        ["w0"] ["w0"] [] [] 2 1 0).2.2.2.2 hstep

/-! ## C8: action-key check -/

/-- C8 (code bug in `coding_agent.py`): a model response decoding to a
JSON object without the `action` key crashes the minimal loop with a
`KeyError` after one gateway call (line 354 accesses `action["action"]`
unguarded), while the mobile loop's defensive check turns every such turn
into the malformed-response transcript note and runs to its step budget. -/
theorem C8_action_key_check :
    (run_agent ([] : Registry Unit)
        (fun _ => "\x7b\"result\": \"ok\"\x7d") 3 ()).result =
      PyResult.exn "KeyError: \x27action\x27" ∧
    (run_agent ([] : Registry Unit)
        (fun _ => "\x7b\"result\": \"ok\"\x7d") 3 ()).calls = 1 ∧
    (mobile_run_agent ([] : Registry Unit)
        (fun _ => "\x7b\"result\": \"ok\"\x7d") (fun _ => "") true 3
        ()).result = PyResult.ok (Json.str (maxStepsMsg 3)) ∧
    (mobile_run_agent ([] : Registry Unit)
        (fun _ => "\x7b\"result\": \"ok\"\x7d") (fun _ => "") true 3
        ()).calls = 3 ∧
    (mobile_run_agent ([] : Registry Unit)
        (fun _ => "\x7b\"result\": \"ok\"\x7d") (fun _ => "") true 3
        ()).history =
      [⟨"assistant", "\x7b\"result\": \"ok\"\x7d"⟩,
        ⟨"tool", "Response must be valid JSON with \x27action\x27 field."⟩,
        ⟨"assistant", "\x7b\"result\": \"ok\"\x7d"⟩,
        ⟨"tool", "Response must be valid JSON with \x27action\x27 field."⟩,
        ⟨"assistant", "\x7b\"result\": \"ok\"\x7d"⟩,
        ⟨"tool", "Response must be valid JSON with \x27action\x27 field."⟩] :=
  ⟨by decide, by decide, by decide, by decide, by decide⟩

/-! ## C6: sub-agent tool restriction -/

/-- C6: a sub-agent restricted to `allowed_tools=["read_file"]` that
attempts the action `write_file` gets the `"Tool not available:
write_file. ..."` tool result, the loop continues, and the world — in
particular the filesystem — is left exactly as it was (the write tool is
not reachable, and nothing is dispatched). -/
theorem C6_subagent_isolation {W : Type} (parent : Registry W)
    (raw : String) (history : List Entry) (w : W) (disp : List String)
    (hact : objLookup (clean_json raw) "action" = some (Json.str "write_file"))
    (hnotc : strContains raw "TASK_COMPLETE:" = false) :
    "write_file" ∉ regKeys (restrictTools parent ["read_file"]) ∧
    focused_step (restrictTools parent ["read_file"]) raw history w disp =
      StepOut.cont (history ++ [⟨"assistant", raw⟩,
        ⟨"tool", "Tool not available: write_file. Available: " ++
          pyStrListRepr (regKeys (restrictTools parent ["read_file"]))⟩])
        w disp := by
  have hlook : (restrictTools parent ["read_file"]).lookup "write_file" =
      none := by
    rcases hp : parent.lookup "read_file" with _ | f <;>
      simp [restrictTools, hp, List.lookup]
  have hmem : "write_file" ∉ regKeys (restrictTools parent ["read_file"]) := by
    rcases hp : parent.lookup "read_file" with _ | f <;>
      simp [restrictTools, regKeys, hp]
  refine ⟨hmem, ?_⟩
  simp [focused_step, hnotc, hact, toolMember, hlook, pyStr]

theorem C6_subagent_isolation_witness :
    (objLookup (clean_json
        "\x7b\"action\": \"write_file\", \"args\": \x7b\"path\": \"f.txt\"\x7d\x7d")
        "action" = some (Json.str "write_file")) ∧
    strContains
      "\x7b\"action\": \"write_file\", \"args\": \x7b\"path\": \"f.txt\"\x7d\x7d"
      "TASK_COMPLETE:" = false ∧
    ("write_file" ∉ regKeys (restrictTools
      [("read_file", fsRead), ("write_file", fsWrite)] ["read_file"]) ∧
    focused_step (restrictTools
        [("read_file", fsRead), ("write_file", fsWrite)] ["read_file"])
        "\x7b\"action\": \"write_file\", \"args\": \x7b\"path\": \"f.txt\"\x7d\x7d"
        [] [("old.txt", "y")] [] =
      StepOut.cont ([] ++ [⟨"assistant",
          "\x7b\"action\": \"write_file\", \"args\": \x7b\"path\": \"f.txt\"\x7d\x7d"⟩,
        ⟨"tool", "Tool not available: write_file. Available: " ++
          pyStrListRepr (regKeys (restrictTools
            [("read_file", fsRead), ("write_file", fsWrite)] ["read_file"]))⟩])
        [("old.txt", "y")] []) :=
  ⟨by decide, by decide,
    C6_subagent_isolation [("read_file", fsRead), ("write_file", fsWrite)]
      "\x7b\"action\": \"write_file\", \"args\": \x7b\"path\": \"f.txt\"\x7d\x7d"
      [] [("old.txt", "y")] [] (by decide) (by decide)⟩

end HXAgent
